import Mathlib

/-!
Verification development for the rudo repository's host-controlled
lifecycle bridge (custom elements) and the `Class` token-list wrapper
in `arwa/src/dom/element.rs`.

Host primitives (the browser's `DomTokenList`, fragment cloning,
query-selector) are modelled at their documented interface; the wrapper
code from `src/` is embedded on top of those models.
-/

namespace Rudo

/-! ## DomTokenList model and the `Class` wrapper (arwa/src/dom/element.rs) -/

/-- Model of the host's `DomTokenList` backing store: the ordered list of
class tokens of an element. -/
abbrev TokenList := List String

/-- Model of `DomTokenList::contains`. -/
def TokenList.containsTok (l : TokenList) (t : String) : Bool :=
  l.contains t

/-- Model of `DomTokenList::toggle_with_force(token, true)`: adds the token
unless it is already present. -/
def TokenList.toggleForceOn (l : TokenList) (t : String) : TokenList :=
  if l.contains t then l else l ++ [t]

/-- Model of `DomTokenList::remove_1(token)`: removes the token from the
list. -/
def TokenList.removeTok (l : TokenList) (t : String) : TokenList :=
  l.filter (fun x => x ≠ t)

/-- Embedded from `Class::insert` (element.rs lines 279-287): if the list
does not contain the token, toggle it on and return `true`; otherwise
return `false` and leave the list alone. Returns the updated list paired
with the boolean result. -/
def classInsert (l : TokenList) (t : String) : TokenList × Bool :=
  if ¬ l.containsTok t then
    (l.toggleForceOn t, true)
  else
    (l, false)

/-- Embedded from `Class::remove` (element.rs lines 289-297): if the list
contains the token, remove it and return `true`; otherwise return `false`
and leave the list alone. -/
def classRemove (l : TokenList) (t : String) : TokenList × Bool :=
  if l.containsTok t then
    (l.removeTok t, true)
  else
    (l, false)

/-! ## Shadow-tree model for MyElement's attribute_changed_callback -/

/-- Model of a node in MyElement's shadow tree: its `id` attribute and its
serialized inner content (`inner_html`). -/
structure ShadowNode where
  id : String
  inner : String
deriving DecidableEq

/-- Model of `query_selector_first(&selector!("#message_container"))` on a
shadow root holding the given nodes: the first node whose id matches. -/
def queryFirstById (shadow : List ShadowNode) (i : String) : Option ShadowNode :=
  shadow.find? (fun nd => nd.id == i)

/-- Model of `deserialize_inner` (`set_inner_html`) applied to the first node
with the given id: replaces that node's serialized content, leaving every
other node unchanged. -/
def setFirstInnerById (shadow : List ShadowNode) (i : String) (v : String) : List ShadowNode :=
  match shadow with
  | [] => []
  | nd :: rest =>
    if nd.id == i then { nd with inner := v } :: rest
    else nd :: setFirstInnerById rest i v

/-- Lifecycle change record delivered to an attribute-changed callback
(`arwa::html::AttributeChange`). -/
structure AttributeChange where
  attributeName : String
  oldValue : Option String
  newValue : Option String
deriving DecidableEq

/-- Embedded from `attribute_changed_callback` (my_element/mod.rs lines
82-92), acting on the instance's shadow tree: when the changed attribute is
"message", look up `#message_container` — `unwrap` panics (modelled as
`none`) when it is absent — and set its serialized content to the new value,
`unwrap_or_default` substituting the empty string for a removed attribute;
any other attribute name leaves the shadow tree untouched. -/
def myAttributeChangedOnShadow (shadow : List ShadowNode) (change : AttributeChange) :
    Option (List ShadowNode) :=
  if change.attributeName == "message" then
    if (queryFirstById shadow "message_container").isSome then
      some (setFirstInnerById shadow "message_container" (change.newValue.getD ""))
    else
      none
  else
    some shadow

/-! ## Lifecycle bridge model

The bridge implementation (`arwa`'s custom-element registry, instance table
and dispatcher) is not among the available source files; the definitions in
this section are modelled from the spec (sections 3, 4 and 7). Host-element
identity is a natural number; application callbacks are functions on the
caller-defined data that may signal failure. -/

/-- Modelled from the spec: a Registration binds a kind name to a
constructor, the four lifecycle callbacks and the observed-attribute
allow-list (spec section 3). Callbacks may signal failure (spec section 7,
CallbackFailure). -/
structure Registration (Data : Type) where
  kindName : String
  construct : Nat → Data
  connected : Data → Except String Data
  disconnected : Data → Except String Data
  adopted : Data → Except String Data
  attributeChanged : Data → AttributeChange → Except String Data
  observedAttributes : List String

/-- Modelled from the spec: the stable lifecycle states of an instance
(spec section 4.4). -/
inductive LifecycleState where
  | connectedSt
  | disconnectedSt
deriving DecidableEq

/-- Modelled from the spec: an Instance Table entry pairs the kind name with
the caller-owned data and the current lifecycle state (spec section 3). -/
structure Instance (Data : Type) where
  kind : String
  data : Data
  state : LifecycleState

/-- Modelled from the spec: the bridge's process state — the Registration
Registry, the Instance Table keyed by host identity, and the caller-visible
error channel (spec sections 2 and 7). -/
structure BridgeState (Data : Type) where
  registry : List (String × Registration Data)
  table : List (Nat × Instance Data)
  errors : List String

/-- Modelled from the spec: `DuplicateKind` and the defensive rejection of a
second live entry for one host (spec sections 4.1 and 4.3). -/
inductive BridgeErr where
  | duplicateKind
  | unknownKind
  | duplicateInstance
deriving DecidableEq

/-- Registry lookup by kind name (spec section 4.1, `lookup`). -/
def lookupReg {Data : Type} (s : BridgeState Data) (k : String) : Option (Registration Data) :=
  (s.registry.find? (fun p => p.1 == k)).map (fun p => p.2)

/-- Instance Table lookup by host identity (spec section 4.3,
`with_instance`'s lookup step). -/
def findInst {Data : Type} (s : BridgeState Data) (h : Nat) : Option (Instance Data) :=
  (s.table.find? (fun p => p.1 == h)).map (fun p => p.2)

/-- Replaces the Instance Table entry for host `h`, leaving every other
entry unchanged. -/
def updateTable {Data : Type} (t : List (Nat × Instance Data)) (h : Nat) (i : Instance Data) :
    List (Nat × Instance Data) :=
  t.map (fun p => if p.1 == h then (h, i) else p)

/-- Modelled from the spec: `register(descriptor)` fails with DuplicateKind
when the kind name is already registered, otherwise publishes the
registration (spec section 4.1). -/
def register {Data : Type} (s : BridgeState Data) (r : Registration Data) :
    Except BridgeErr (BridgeState Data) :=
  if (s.registry.find? (fun p => p.1 == r.kindName)).isSome then
    .error .duplicateKind
  else
    .ok { s with registry := s.registry ++ [(r.kindName, r)] }

/-- Modelled from the spec: `construct(h)` looks up the Registration by kind
name, rejects a host that already has a live entry, otherwise runs the
constructor and inserts a new entry in the initial `Disconnected` state
(spec sections 4.3 and 4.4, `Constructing`). -/
def construct {Data : Type} (s : BridgeState Data) (h : Nat) (k : String) :
    Except BridgeErr (BridgeState Data) :=
  match lookupReg s k with
  | none => .error .unknownKind
  | some r =>
    if (findInst s h).isSome then
      .error .duplicateInstance
    else
      .ok { s with table := s.table ++ [(h, ⟨k, r.construct h, .disconnectedSt⟩)] }

/-- Modelled from the spec: the four inbound lifecycle notifications the
bridge handles (spec section 6); an adoption notification carries the new
attachment state reported by the host (spec section 4.4, `Adopting`). -/
inductive Notification where
  | connectN (h : Nat)
  | disconnectN (h : Nat)
  | adoptN (h : Nat) (nowConnected : Bool)
  | attributeMutated (h : Nat) (name : String) (old : Option String) (new : Option String)
deriving DecidableEq

/-- Record of one application-callback invocation, used to state
exactly-once dispatch properties. -/
inductive Ev where
  | connectedEv (h : Nat)
  | disconnectedEv (h : Nat)
  | adoptedEv (h : Nat)
  | attributeChangedEv (h : Nat) (change : AttributeChange)
deriving DecidableEq

/-- Modelled from the spec: the Lifecycle Dispatcher. A notification for a
host with no table entry is a benign no-op (spec section 7,
UnknownInstance). An attribute mutation is dropped without any callback
invocation when the name is not in the registration's observed-attribute
set (spec section 4.4). A callback failure leaves the table untouched and
is appended to the caller-visible error channel (spec section 4.4, failure
semantics). Returns the new state and the list of callback invocations. -/
def dispatch {Data : Type} (s : BridgeState Data) (n : Notification) :
    BridgeState Data × List Ev :=
  match n with
  | .connectN h =>
    match findInst s h with
    | none => (s, [])
    | some inst =>
      match lookupReg s inst.kind with
      | none => (s, [])
      | some r =>
        match r.connected inst.data with
        | .ok d =>
          ({ s with table := updateTable s.table h { inst with data := d, state := .connectedSt } },
            [.connectedEv h])
        | .error e => ({ s with errors := s.errors ++ [e] }, [.connectedEv h])
  | .disconnectN h =>
    match findInst s h with
    | none => (s, [])
    | some inst =>
      match lookupReg s inst.kind with
      | none => (s, [])
      | some r =>
        match r.disconnected inst.data with
        | .ok d =>
          ({ s with table := updateTable s.table h { inst with data := d, state := .disconnectedSt } },
            [.disconnectedEv h])
        | .error e => ({ s with errors := s.errors ++ [e] }, [.disconnectedEv h])
  | .adoptN h nowConnected =>
    match findInst s h with
    | none => (s, [])
    | some inst =>
      match lookupReg s inst.kind with
      | none => (s, [])
      | some r =>
        match r.adopted inst.data with
        | .ok d =>
          let st : LifecycleState := if nowConnected then .connectedSt else .disconnectedSt
          ({ s with table := updateTable s.table h { inst with data := d, state := st } },
            [.adoptedEv h])
        | .error e => ({ s with errors := s.errors ++ [e] }, [.adoptedEv h])
  | .attributeMutated h name old new =>
    match findInst s h with
    | none => (s, [])
    | some inst =>
      match lookupReg s inst.kind with
      | none => (s, [])
      | some r =>
        if r.observedAttributes.contains name then
          match r.attributeChanged inst.data ⟨name, old, new⟩ with
          | .ok d =>
            ({ s with table := updateTable s.table h { inst with data := d } },
              [.attributeChangedEv h ⟨name, old, new⟩])
          | .error e =>
            ({ s with errors := s.errors ++ [e] }, [.attributeChangedEv h ⟨name, old, new⟩])
        else
          (s, [])

/-- Modelled from the spec: the dispatcher's notification loop — every
notification is processed in order, none is skipped (spec section 7,
propagation policy). -/
def dispatchAll {Data : Type} (s : BridgeState Data) (ns : List Notification) :
    BridgeState Data × List Ev :=
  match ns with
  | [] => (s, [])
  | n :: rest =>
    let (s', evs) := dispatch s n
    let (s'', evs') := dispatchAll s' rest
    (s'', evs ++ evs')

/-! ## MyElement (examples/custom_elements/src/my_element/mod.rs) -/

/-- Embedded from `MyElementData` (my_element/mod.rs lines 25-27): the
caller-defined data is a `Cell<u32>` connection counter, modelled as a
natural number kept below 2^32. -/
structure MyElementData where
  connectedCount : Nat
deriving DecidableEq

/-- Modulus of the `u32` counter. -/
def u32Mod : Nat := 2 ^ 32

/-- Embedded from `connected_callback` (my_element/mod.rs lines 69-76):
reads the counter, adds one (the `u32` wraps at 2^32) and stores it back. -/
def myConnected (d : MyElementData) : MyElementData :=
  ⟨(d.connectedCount + 1) % u32Mod⟩

/-- Embedded from `MY_ELEMENT` (my_element/mod.rs lines 94-102) as a bridge
Registration: `observed_attributes` is exactly `["message"]`; the
constructor initialises the counter to zero; the adopted callback is the
default no-op; the attribute-changed callback acts on the shadow tree
(modelled by `myAttributeChangedOnShadow`), so at the bridge-data level it
leaves the counter unchanged. The registered kind name is modelled as
"my-element" (the registering call site is not among the available
sources). -/
def myElementReg : Registration MyElementData where
  kindName := "my-element"
  construct := fun _ => ⟨0⟩
  connected := fun d => .ok (myConnected d)
  disconnected := fun d => .ok d
  adopted := fun d => .ok d
  attributeChanged := fun d _ => .ok d
  observedAttributes := ["message"]

/-- Bridge state holding the MyElement registration and one freshly
constructed instance at host identity 0. -/
def myState : BridgeState MyElementData where
  registry := [("my-element", myElementReg)]
  table := [(0, ⟨"my-element", ⟨0⟩, .disconnectedSt⟩)]
  errors := []

/-- Applies `n` connect notifications for host 0 to `myState`. -/
def connectIter : Nat → BridgeState MyElementData
  | 0 => myState
  | n + 1 => (dispatch (connectIter n) (.connectN 0)).1

/-- Value of MyElement's connection counter after `n` connect
notifications. -/
def myCountAfter (n : Nat) : Nat :=
  match findInst (connectIter n) 0 with
  | some inst => inst.data.connectedCount
  | none => 0

/-! ## Reentrancy guard model (spec sections 4.3 and 5) -/

/-- Modelled from the spec: the dynamically-checked per-instance borrow
state of policy (b) in section 4.3 — a count of live nested
(non-exclusive) accesses plus a flag marking a live exclusive borrow of
`data`. -/
structure GuardState where
  sharedDepth : Nat
  exclusiveLive : Bool
deriving DecidableEq

/-- Guard of an instance nobody is currently accessing. -/
def guardFree : GuardState := ⟨0, false⟩

/-- Modelled from the spec: `with_instance` acquiring the guard. Nested
non-overlapping access is permitted at any depth; acquisition fails fast
only while an exclusive borrow of `data` is simultaneously live (spec
section 4.3, policy (b)). -/
def acquireNested (g : GuardState) : Option GuardState :=
  if g.exclusiveLive then none else some { g with sharedDepth := g.sharedDepth + 1 }

/-- Releases one level of nested access. -/
def releaseNested (g : GuardState) : GuardState :=
  { g with sharedDepth := g.sharedDepth - 1 }

/-- Modelled from the spec: taking a dynamically-checked exclusive borrow of
`data`; fails fast exactly when another exclusive borrow is already live
(spec section 7, ReentrantAliasViolation). -/
def tryBorrowMut (g : GuardState) : Option GuardState :=
  if g.exclusiveLive then none else some { g with exclusiveLive := true }

/-- Releases an exclusive borrow of `data`. -/
def releaseMut (g : GuardState) : GuardState :=
  { g with exclusiveLive := false }

/-- Outcome of the reentrant-dispatch scenario: the final instance data, the
attribute value and change the nested callback observed, the final guard
state and the callback invocations, in order. -/
structure ReentrantOutcome where
  data : MyElementData
  observedChange : AttributeChange
  observedCount : Nat
  finalGuard : GuardState
  events : List Ev
deriving DecidableEq

/-- Modelled from the spec: the reentrancy scenario of section 8 — a
connect dispatch whose connected callback synchronously sets the "message"
attribute on its own instance, which re-enters the dispatcher for the
attribute-changed notification before the connected callback returns.
Every guard acquisition and every exclusive borrow of `data` is threaded
explicitly; a `none` result would mean the dispatch could not complete
(deadlock or a borrow violation). -/
def reentrantScenario : Option ReentrantOutcome := do
  let g0 := guardFree
  let g1 ← acquireNested g0
  let ga ← tryBorrowMut g1
  let d1 := myConnected ⟨0⟩
  let g2 := releaseMut ga
  let change : AttributeChange := ⟨"message", none, some "hi"⟩
  let g3 ← acquireNested g2
  let gb ← tryBorrowMut g3
  let obsCount := d1.connectedCount
  let g4 := releaseMut gb
  let g5 := releaseNested g4
  let g6 := releaseNested g5
  some ⟨d1, change, obsCount, g6, [.connectedEv 0, .attributeChangedEv 0 change]⟩

/-! ## Template fragment store (spec sections 4.2 and my_element constructor) -/

/-- Structural document fragment. -/
inductive Frag where
  | elem (tag : String) (children : List Frag)

/-- Node store mapping node identities to their current fragment value;
`next` is the first unallocated identity. -/
structure FragStore where
  entries : List (Nat × Frag)
  next : Nat

/-- Looks up the fragment held at one node identity. -/
def storeFind (es : List (Nat × Frag)) (k : Nat) : Option Frag :=
  (es.find? (fun p => p.1 == k)).map (fun p => p.2)

/-- Store well-formedness: every allocated identity is below `next`. -/
def FragStore.wfb (s : FragStore) : Bool :=
  s.entries.all (fun p => p.1 < s.next)

/-- Model of `ParentNode::duplicate_deep`: allocates a fresh node identity
holding a deep structural copy of the source node's fragment; `none` if the
source identity is dangling. -/
def duplicateDeep (s : FragStore) (src : Nat) : Option (FragStore × Nat) :=
  match storeFind s.entries src with
  | none => none
  | some f => some (⟨s.entries ++ [(s.next, f)], s.next + 1⟩, s.next)

/-- Model of mutating the fragment held at one node identity, leaving every
other identity's fragment untouched. -/
def setFrag (s : FragStore) (k : Nat) (f : Frag) : FragStore :=
  { s with entries := s.entries.map (fun p => if p.1 == k then (k, f) else p) }

/-- Embedded from `constructor` (my_element/mod.rs lines 55-67): deeply
duplicate the cached TEMPLATE content and append the clone — and only the
clone — to the element's new shadow root. Returns the store and the node
identities attached to the shadow root. -/
def constructShadow (s : FragStore) (protoId : Nat) : Option (FragStore × List Nat) :=
  (duplicateDeep s protoId).map (fun p => (p.1, [p.2]))

/-! ## Further definitions used by the claim statements -/

/-- Bridge state with nothing registered and no instances. -/
def emptyBridge (Data : Type) : BridgeState Data :=
  ⟨[], [], []⟩

/-- Modelled from the spec: bridge states reachable from the empty initial
state through registration, construction and lifecycle dispatch (spec
section 2, control flow). -/
inductive Reachable {Data : Type} : BridgeState Data → Prop where
  | init : Reachable (emptyBridge Data)
  | regStep {s s' : BridgeState Data} {r : Registration Data} :
      Reachable s → register s r = .ok s' → Reachable s'
  | conStep {s s' : BridgeState Data} {h : Nat} {k : String} :
      Reachable s → construct s h k = .ok s' → Reachable s'
  | dispStep {s : BridgeState Data} {n : Notification} :
      Reachable s → Reachable (dispatch s n).1

/-- Number of Instance Table entries held for one host identity. -/
def countEntries {Data : Type} (s : BridgeState Data) (h : Nat) : Nat :=
  (s.table.filter (fun p => p.1 == h)).length

/-- Lifecycle state of MyElement's instance after `n` connect
notifications. -/
def stateAfter : Nat → LifecycleState
  | 0 => .disconnectedSt
  | _ + 1 => .connectedSt

/-- Result of the application callback a notification would invoke on state
`s`, or `none` when the dispatcher invokes no callback (unknown instance,
unknown kind, or a filtered attribute name). -/
def callbackResult {Data : Type} (s : BridgeState Data) (n : Notification) :
    Option (Except String Data) :=
  match n with
  | .connectN h =>
    match findInst s h with
    | none => none
    | some inst => (lookupReg s inst.kind).map (fun r => r.connected inst.data)
  | .disconnectN h =>
    match findInst s h with
    | none => none
    | some inst => (lookupReg s inst.kind).map (fun r => r.disconnected inst.data)
  | .adoptN h _ =>
    match findInst s h with
    | none => none
    | some inst => (lookupReg s inst.kind).map (fun r => r.adopted inst.data)
  | .attributeMutated h name old new =>
    match findInst s h with
    | none => none
    | some inst =>
      match lookupReg s inst.kind with
      | none => none
      | some r =>
        if r.observedAttributes.contains name then
          some (r.attributeChanged inst.data ⟨name, old, new⟩)
        else
          none

/-- Registration whose connected callback always signals failure, used to
exercise the failure-containment path. -/
def failingReg : Registration Bool where
  kindName := "fragile"
  construct := fun _ => false
  connected := fun _ => .error "boom"
  disconnected := fun d => .ok d
  adopted := fun d => .ok d
  attributeChanged := fun d _ => .ok d
  observedAttributes := []

/-- Bridge state holding the failing registration, one of its instances at
host 7 and an unrelated healthy MyElement-free instance at host 8. -/
def failState : BridgeState Bool where
  registry := [("fragile", failingReg)]
  table := [(7, ⟨"fragile", false, .disconnectedSt⟩), (8, ⟨"fragile", true, .disconnectedSt⟩)]
  errors := []

/-! ## Helper lemmas -/

/-- Finding in an appended list when the left part has no match. -/
theorem find?_append_of_none {α : Type} (p : α → Bool) (l₁ l₂ : List α)
    (h : l₁.find? p = none) : (l₁ ++ l₂).find? p = l₂.find? p := by
  induction l₁ with
  | nil => rfl
  | cons a l ih =>
    by_cases hpa : p a = true
    · rw [List.find?_cons_of_pos _ hpa] at h
      exact absurd h (by simp)
    · rw [List.find?_cons_of_neg _ (by simpa using hpa)] at h
      rw [List.cons_append, List.find?_cons_of_neg _ (by simpa using hpa)]
      exact ih h

/-- Finding in an appended list is left-biased. -/
theorem find?_append_of_some {α : Type} (p : α → Bool) (l₁ l₂ : List α) (a : α)
    (h : l₁.find? p = some a) : (l₁ ++ l₂).find? p = some a := by
  induction l₁ with
  | nil => simp at h
  | cons b l ih =>
    by_cases hpb : p b = true
    · rw [List.find?_cons_of_pos _ hpb] at h
      rw [List.cons_append, List.find?_cons_of_pos _ hpb]
      exact h
    · rw [List.find?_cons_of_neg _ (by simpa using hpb)] at h
      rw [List.cons_append, List.find?_cons_of_neg _ (by simpa using hpb)]
      exact ih h

/-- Setting the first node with a given id rewrites exactly that node's
serialized content, as seen through a subsequent query. -/
theorem queryFirst_setFirstInner (shadow : List ShadowNode) (i v : String) :
    queryFirstById (setFirstInnerById shadow i v) i =
      (queryFirstById shadow i).map (fun nd => { nd with inner := v }) := by
  induction shadow with
  | nil => rfl
  | cons nd rest ih =>
    by_cases h : nd.id = i
    · simp [setFirstInnerById, queryFirstById, List.find?_cons_of_pos, h]
    · have hb : (nd.id == i) = false := by simp [h]
      simp only [setFirstInnerById, hb, Bool.false_eq_true, if_false]
      simp only [queryFirstById] at ih ⊢
      rw [List.find?_cons_of_neg, List.find?_cons_of_neg]
      · exact ih
      · simp [h]
      · simp [h]

/-! ## Claim theorems -/

/-- C9: for every element and class token `t`, `Class::insert(t)` returns
`true` if and only if `t` was not already in the class list (and afterwards
the list contains `t`), `Class::remove(t)` returns `true` if and only if
`t` was in the class list (and afterwards the list does not contain `t`),
and inserting an already-present token or removing an absent token leaves
the class list unchanged. -/
theorem class_insert_remove_correct (l : TokenList) (t : String) :
    ((classInsert l t).2 = true ↔ t ∉ l) ∧
    t ∈ (classInsert l t).1 ∧
    (t ∈ l → (classInsert l t).1 = l) ∧
    ((classRemove l t).2 = true ↔ t ∈ l) ∧
    t ∉ (classRemove l t).1 ∧
    (t ∉ l → (classRemove l t).1 = l) := by
  by_cases h : t ∈ l <;>
    simp [classInsert, classRemove, TokenList.containsTok, TokenList.toggleForceOn,
      TokenList.removeTok, h, List.mem_filter]

/-- Witness for C9 at a concrete class list and token. -/
theorem class_insert_remove_correct_witness :
    ((classInsert ["a"] "b").2 = true ↔ "b" ∉ ["a"]) ∧
    "b" ∈ (classInsert ["a"] "b").1 ∧
    ("b" ∈ ["a"] → (classInsert ["a"] "b").1 = ["a"]) ∧
    ((classRemove ["a"] "b").2 = true ↔ "b" ∈ ["a"]) ∧
    "b" ∉ (classRemove ["a"] "b").1 ∧
    ("b" ∉ ["a"] → (classRemove ["a"] "b").1 = ["a"]) :=
  class_insert_remove_correct ["a"] "b"

/-- C10: for every AttributeChange delivered to MyElement's
attribute_changed_callback on an instance whose constructor has run (so the
shadow root holds a node with id "message_container"): if the attribute
name is "message", the callback completes (no panic, also for a removed
attribute) and sets the message container's serialized content to the new
value, the empty string substituting for `None`; any other attribute name
leaves the shadow tree entirely unchanged. -/
theorem my_attribute_changed_correct (shadow : List ShadowNode) (change : AttributeChange)
    (hwf : (queryFirstById shadow "message_container").isSome = true) :
    (change.attributeName = "message" →
      myAttributeChangedOnShadow shadow change =
        some (setFirstInnerById shadow "message_container" (change.newValue.getD "")) ∧
      (queryFirstById (setFirstInnerById shadow "message_container" (change.newValue.getD ""))
          "message_container").map ShadowNode.inner = some (change.newValue.getD "")) ∧
    (change.attributeName ≠ "message" → myAttributeChangedOnShadow shadow change = some shadow) := by
  constructor
  · intro hname
    constructor
    · simp [myAttributeChangedOnShadow, hname, hwf]
    · rw [queryFirst_setFirstInner]
      rcases ho : queryFirstById shadow "message_container" with _ | nd
      · rw [ho] at hwf; simp at hwf
      · simp
  · intro hname
    simp [myAttributeChangedOnShadow, hname]

/-- Witness for C10: a concrete shadow tree holding the message container,
exercised with an attribute-removal change. -/
theorem my_attribute_changed_correct_witness :
    (AttributeChange.attributeName ⟨"message", some "hi", none⟩ = "message" →
      myAttributeChangedOnShadow [⟨"message_container", "hi"⟩] ⟨"message", some "hi", none⟩ =
        some (setFirstInnerById [⟨"message_container", "hi"⟩] "message_container"
          ((Option.none).getD "")) ∧
      (queryFirstById (setFirstInnerById [⟨"message_container", "hi"⟩] "message_container"
          ((Option.none).getD "")) "message_container").map ShadowNode.inner =
        some ((Option.none).getD "")) ∧
    (AttributeChange.attributeName ⟨"message", some "hi", none⟩ ≠ "message" →
      myAttributeChangedOnShadow [⟨"message_container", "hi"⟩] ⟨"message", some "hi", none⟩ =
        some [⟨"message_container", "hi"⟩]) :=
  my_attribute_changed_correct [⟨"message_container", "hi"⟩] ⟨"message", some "hi", none⟩ (by decide)

/-- C2: the first registration of a kind name succeeds, a second
registration of the same kind name fails with DuplicateKind (never silently
accepted), and the entry published by the first call is still the one the
registry serves after the failed second call. -/
theorem register_duplicate_kind {Data : Type} (s : BridgeState Data) (r r2 : Registration Data)
    (hfresh : lookupReg s r.kindName = none) (hsame : r2.kindName = r.kindName) :
    ∃ s', register s r = .ok s' ∧
      lookupReg s' r.kindName = some r ∧
      register s' r2 = .error .duplicateKind ∧
      lookupReg s' r2.kindName = some r := by
  have hfind : s.registry.find? (fun p => p.1 == r.kindName) = none := by
    simpa [lookupReg, Option.map_eq_none'] using hfresh
  refine ⟨{ s with registry := s.registry ++ [(r.kindName, r)] }, ?_, ?_, ?_, ?_⟩
  · simp [register, hfind]
  · simp [lookupReg, find?_append_of_none _ _ _ hfind]
  · have : (s.registry ++ [(r.kindName, r)]).find? (fun p => p.1 == r2.kindName) =
        some (r.kindName, r) := by
      rw [hsame, find?_append_of_none _ _ _ hfind]
      simp
    simp [register, this]
  · rw [hsame]
    simp [lookupReg, find?_append_of_none _ _ _ hfind]

/-- Witness for C2: registering MyElement twice on an empty registry. -/
theorem register_duplicate_kind_witness :
    ∃ s', register (emptyBridge MyElementData) myElementReg = .ok s' ∧
      lookupReg s' myElementReg.kindName = some myElementReg ∧
      register s' myElementReg = .error .duplicateKind ∧
      lookupReg s' myElementReg.kindName = some myElementReg :=
  register_duplicate_kind (emptyBridge MyElementData) myElementReg myElementReg rfl rfl

/-- C7: a lifecycle notification of any kind for a host handle with no
Instance Table entry is a benign no-op — the dispatcher invokes no
callback, surfaces no error, and leaves the whole bridge state (so every
other instance) unchanged. -/
theorem unknown_instance_noop {Data : Type} (s : BridgeState Data) (h : Nat) (b : Bool)
    (name : String) (old new : Option String) (hI : findInst s h = none) :
    dispatch s (.connectN h) = (s, []) ∧
    dispatch s (.disconnectN h) = (s, []) ∧
    dispatch s (.adoptN h b) = (s, []) ∧
    dispatch s (.attributeMutated h name old new) = (s, []) := by
  refine ⟨?_, ?_, ?_, ?_⟩ <;> simp [dispatch, hI]

/-- Witness for C7: notifications for the never-constructed host 5. -/
theorem unknown_instance_noop_witness :
    dispatch myState (.connectN 5) = (myState, []) ∧
    dispatch myState (.disconnectN 5) = (myState, []) ∧
    dispatch myState (.adoptN 5 true) = (myState, []) ∧
    dispatch myState (.attributeMutated 5 "message" none (some "hi")) = (myState, []) :=
  unknown_instance_noop myState 5 true "message" none (some "hi") rfl

/-- C1: for every attribute mutation notification delivered for a live
instance, a name outside the registration's observed_attributes is dropped
with no callback invocation and no state change, while a name inside the
set invokes attribute_changed exactly once with exactly
AttributeChange(name, old, new); in particular for MyElement
(observed_attributes = ["message"]) a "message" mutation reaches the
attribute-changed callback and a "style" mutation invokes nothing. -/
theorem attribute_filter_correct {Data : Type} (s : BridgeState Data) (h : Nat)
    (inst : Instance Data) (r : Registration Data) (name : String) (old new : Option String)
    (hI : findInst s h = some inst) (hR : lookupReg s inst.kind = some r) :
    (r.observedAttributes.contains name = false →
      dispatch s (.attributeMutated h name old new) = (s, [])) ∧
    (r.observedAttributes.contains name = true →
      (dispatch s (.attributeMutated h name old new)).2 =
        [.attributeChangedEv h ⟨name, old, new⟩]) ∧
    myElementReg.observedAttributes = ["message"] ∧
    (dispatch myState (.attributeMutated 0 "message" none (some "hi"))).2 =
      [.attributeChangedEv 0 ⟨"message", none, some "hi"⟩] ∧
    dispatch myState (.attributeMutated 0 "style" none (some "red")) = (myState, []) := by
  refine ⟨?_, ?_, rfl, rfl, rfl⟩
  · intro hc
    have hm : name ∉ r.observedAttributes := by simpa using hc
    simp [dispatch, hI, hR, hm]
  · intro hc
    have hm : name ∈ r.observedAttributes := by simpa using hc
    rcases hres : r.attributeChanged inst.data ⟨name, old, new⟩ with e | d <;>
      simp [dispatch, hI, hR, hm, hres]

/-- Witness for C1 at MyElement's live instance and a "message" mutation. -/
theorem attribute_filter_correct_witness :
    ((myElementReg.observedAttributes.contains "message" = false →
      dispatch myState (.attributeMutated 0 "message" none (some "hi")) = (myState, [])) ∧
    (myElementReg.observedAttributes.contains "message" = true →
      (dispatch myState (.attributeMutated 0 "message" none (some "hi"))).2 =
        [.attributeChangedEv 0 ⟨"message", none, some "hi"⟩]) ∧
    myElementReg.observedAttributes = ["message"] ∧
    (dispatch myState (.attributeMutated 0 "message" none (some "hi"))).2 =
      [.attributeChangedEv 0 ⟨"message", none, some "hi"⟩] ∧
    dispatch myState (.attributeMutated 0 "style" none (some "red")) = (myState, [])) :=
  attribute_filter_correct myState 0 ⟨"my-element", ⟨0⟩, .disconnectedSt⟩ myElementReg
    "message" none (some "hi") rfl rfl

/-- C5: the reentrant dispatch in which a connected callback synchronously
mutates an attribute on its own instance completes (no deadlock), leaves
the instance data uncorrupted (the counter reads 1), lets the
attribute-changed callback observe the updated value, releases the guard
back to the free state, and invokes the two callbacks in order; the guard
permits nested non-overlapping access one level deep and fails fast exactly
when a second exclusive borrow would overlap a live one. -/
theorem reentrant_dispatch_safe :
    reentrantScenario = some ⟨⟨1⟩, ⟨"message", none, some "hi"⟩, 1, guardFree,
      [.connectedEv 0, .attributeChangedEv 0 ⟨"message", none, some "hi"⟩]⟩ ∧
    (∀ g : GuardState, tryBorrowMut g = none ↔ g.exclusiveLive = true) ∧
    (∀ g : GuardState, acquireNested g = none ↔ g.exclusiveLive = true) := by
  refine ⟨rfl, ?_, ?_⟩ <;>
    · intro g
      rcases g with ⟨d, _ | _⟩ <;> simp [tryBorrowMut, acquireNested, guardFree]

/-- Keys served by a well-bounded store stay below the bound. -/
theorem storeFind_key_lt (es : List (Nat × Frag)) (k m : Nat) (t : Frag)
    (hfind : storeFind es k = some t) (hall : es.all (fun p => p.1 < m) = true) : k < m := by
  rcases hp : es.find? (fun p => p.1 == k) with _ | p
  · simp [storeFind, hp] at hfind
  · have hmem := List.mem_of_find?_eq_some hp
    have hkey : p.1 = k := by simpa using List.find?_some hp
    have hbd : p.1 < m := by simpa using (List.all_eq_true.mp hall) p hmem
    omega

/-- A store serves `none` exactly when the raw find does. -/
theorem storeFind_none_iff (es : List (Nat × Frag)) (k : Nat) :
    storeFind es k = none ↔ es.find? (fun p => p.1 == k) = none := by
  simp [storeFind, Option.map_eq_none']

/-- A store whose keys all differ from `k` serves nothing at `k`. -/
theorem storeFind_none_of_ne (es : List (Nat × Frag)) (k : Nat)
    (hne : ∀ p ∈ es, p.1 ≠ k) : storeFind es k = none := by
  rw [storeFind_none_iff, List.find?_eq_none]
  intro p hp
  simpa using hne p hp

/-- A successful store lookup comes from a found entry with the looked-up
value. -/
theorem storeFind_exists (es : List (Nat × Frag)) (k : Nat) (t : Frag)
    (h : storeFind es k = some t) :
    ∃ p, es.find? (fun q => q.1 == k) = some p ∧ p.2 = t := by
  rcases hq : es.find? (fun q => q.1 == k) with _ | p
  · simp [storeFind, hq] at h
  · exact ⟨p, hq, by simpa [storeFind, hq] using h⟩

/-- Updating the entry at one key leaves finds at any other key alone. -/
theorem find?_update_ne (es : List (Nat × Frag)) (k k' : Nat) (v : Frag) (hne : k ≠ k') :
    (es.map (fun p => if p.1 == k' then (k', v) else p)).find? (fun p => p.1 == k) =
      es.find? (fun p => p.1 == k) := by
  induction es with
  | nil => rfl
  | cons p rest ih =>
    by_cases hp : p.1 = k'
    · have hb : (p.1 == k') = true := by simp [hp]
      simp only [List.map_cons, hb, if_true]
      rw [List.find?_cons_of_neg _ (by simp [Ne.symm hne]),
        List.find?_cons_of_neg _ (by simp [hp, Ne.symm hne])]
      exact ih
    · have hb : (p.1 == k') = false := by simp [hp]
      simp only [List.map_cons, hb, Bool.false_eq_true, if_false]
      by_cases hk : p.1 = k
      · rw [List.find?_cons_of_pos _ (by simp [hk]), List.find?_cons_of_pos _ (by simp [hk])]
      · rw [List.find?_cons_of_neg _ (by simp [hk]), List.find?_cons_of_neg _ (by simp [hk])]
        exact ih

/-- Updating the entry at a present key makes finds at that key serve the
new entry. -/
theorem find?_update_eq (es : List (Nat × Frag)) (k : Nat) (v : Frag)
    (hex : (es.find? (fun p => p.1 == k)).isSome = true) :
    (es.map (fun p => if p.1 == k then (k, v) else p)).find? (fun p => p.1 == k) =
      some (k, v) := by
  induction es with
  | nil => simp at hex
  | cons p rest ih =>
    by_cases hp : p.1 = k
    · have hb : (p.1 == k) = true := by simp [hp]
      simp only [List.map_cons, hb, if_true]
      rw [List.find?_cons_of_pos _ (by simp)]
    · have hb : (p.1 == k) = false := by simp [hp]
      simp only [List.map_cons, hb, Bool.false_eq_true, if_false]
      rw [List.find?_cons_of_neg _ (by simp [hp])]
      rw [List.find?_cons_of_neg _ (by simp [hp])] at hex
      exact ih hex

/-- Mutating one node identity leaves the fragment served at every other
identity unchanged. -/
theorem storeFind_setFrag_ne (s : FragStore) (k k' : Nat) (v : Frag) (hne : k ≠ k') :
    storeFind (setFrag s k' v).entries k = storeFind s.entries k := by
  simp only [setFrag, storeFind, find?_update_ne _ _ _ _ hne]

/-- Mutating a present node identity serves the new fragment there. -/
theorem storeFind_setFrag_eq (s : FragStore) (k : Nat) (v t : Frag)
    (hex : storeFind s.entries k = some t) :
    storeFind (setFrag s k v).entries k = some v := by
  have hsome : (s.entries.find? (fun p => p.1 == k)).isSome = true := by
    rcases hq : s.entries.find? (fun p => p.1 == k) with _ | p
    · simp [storeFind, hq] at hex
    · simp [hq]
  simp only [setFrag, storeFind]
  rw [find?_update_eq _ _ _ hsome]
  rfl

/-- C6: each instantiation clones the cached template deeply — two
constructions of one kind yield two distinct, structurally identical clone
nodes, both distinct from the cached prototype; mutating either clone
changes neither the other clone nor the prototype; and only clone
identities, never the prototype, are attached to a shadow root. -/
theorem template_clone_independent (s0 : FragStore) (protoId : Nat) (t f' : Frag)
    (hp : storeFind s0.entries protoId = some t) (hwf : s0.wfb = true) :
    ∃ s1 c1 s2 c2,
      constructShadow s0 protoId = some (s1, [c1]) ∧
      constructShadow s1 protoId = some (s2, [c2]) ∧
      c1 ≠ c2 ∧ c1 ≠ protoId ∧ c2 ≠ protoId ∧
      storeFind s2.entries c1 = some t ∧
      storeFind s2.entries c2 = some t ∧
      storeFind s2.entries protoId = some t ∧
      storeFind (setFrag s2 c1 f').entries c2 = some t ∧
      storeFind (setFrag s2 c1 f').entries protoId = some t ∧
      storeFind (setFrag s2 c2 f').entries c1 = some t ∧
      storeFind (setFrag s2 c2 f').entries protoId = some t ∧
      protoId ∉ [c1] ∧ protoId ∉ [c2] := by
  have hlt : protoId < s0.next := storeFind_key_lt s0.entries protoId s0.next t hp hwf
  have hallwf : ∀ p ∈ s0.entries, p.1 < s0.next := by
    intro p hmem
    simpa using (List.all_eq_true.mp hwf) p hmem
  obtain ⟨p0, hq0, hp0t⟩ := storeFind_exists _ _ _ hp
  have hnone_n : s0.entries.find? (fun p => p.1 == s0.next) = none := by
    rw [← storeFind_none_iff]
    refine storeFind_none_of_ne _ _ (fun p hmem => ?_)
    have := hallwf p hmem
    omega
  have hnone_n1 : (s0.entries ++ [(s0.next, t)]).find? (fun p => p.1 == s0.next + 1) = none := by
    rw [← storeFind_none_iff]
    refine storeFind_none_of_ne _ _ (fun p hmem => ?_)
    rcases List.mem_append.mp hmem with hmem | hmem
    · have := hallwf p hmem
      omega
    · have hpv : p = (s0.next, t) := by simpa using hmem
      rw [hpv]
      omega
  have hc1 : constructShadow s0 protoId =
      some (⟨s0.entries ++ [(s0.next, t)], s0.next + 1⟩, [s0.next]) := by
    simp [constructShadow, duplicateDeep, hp]
  have hp1 : storeFind (s0.entries ++ [(s0.next, t)]) protoId = some t := by
    simp [storeFind, find?_append_of_some _ _ _ _ hq0, hp0t]
  have hc2 : constructShadow ⟨s0.entries ++ [(s0.next, t)], s0.next + 1⟩ protoId =
      some (⟨(s0.entries ++ [(s0.next, t)]) ++ [(s0.next + 1, t)], s0.next + 2⟩,
        [s0.next + 1]) := by
    simp [constructShadow, duplicateDeep, hp1]
  have hfind_c1 : ((s0.entries ++ [(s0.next, t)]) ++ [(s0.next + 1, t)]).find?
      (fun p => p.1 == s0.next) = some (s0.next, t) := by
    refine find?_append_of_some _ _ _ _ ?_
    rw [find?_append_of_none _ _ _ hnone_n]
    simp
  have hfind_c2 : ((s0.entries ++ [(s0.next, t)]) ++ [(s0.next + 1, t)]).find?
      (fun p => p.1 == s0.next + 1) = some (s0.next + 1, t) := by
    rw [find?_append_of_none _ _ _ hnone_n1]
    simp
  have hfind_p : ((s0.entries ++ [(s0.next, t)]) ++ [(s0.next + 1, t)]).find?
      (fun p => p.1 == protoId) = some p0 :=
    find?_append_of_some _ _ _ _ (find?_append_of_some _ _ _ _ hq0)
  have hsc1 : storeFind ((s0.entries ++ [(s0.next, t)]) ++ [(s0.next + 1, t)]) s0.next =
      some t := by
    simp only [storeFind]
    rw [hfind_c1]
    rfl
  have hsc2 : storeFind ((s0.entries ++ [(s0.next, t)]) ++ [(s0.next + 1, t)]) (s0.next + 1) =
      some t := by
    simp only [storeFind]
    rw [hfind_c2]
    rfl
  have hsp : storeFind ((s0.entries ++ [(s0.next, t)]) ++ [(s0.next + 1, t)]) protoId =
      some t := by
    simp only [storeFind]
    rw [hfind_p]
    simp [hp0t]
  refine ⟨⟨s0.entries ++ [(s0.next, t)], s0.next + 1⟩, s0.next,
    ⟨(s0.entries ++ [(s0.next, t)]) ++ [(s0.next + 1, t)], s0.next + 2⟩, s0.next + 1,
    hc1, hc2, by omega, by omega, by omega, hsc1, hsc2, hsp, ?_, ?_, ?_, ?_,
    by simp; omega, by simp; omega⟩
  · rw [storeFind_setFrag_ne _ _ _ _ (by omega)]
    exact hsc2
  · rw [storeFind_setFrag_ne _ _ _ _ (by omega)]
    exact hsp
  · rw [storeFind_setFrag_ne _ _ _ _ (by omega)]
    exact hsc1
  · rw [storeFind_setFrag_ne _ _ _ _ (by omega)]
    exact hsp

/-- Witness for C6: a one-node store holding the cached prototype. -/
theorem template_clone_independent_witness :
    ∃ s1 c1 s2 c2,
      constructShadow ⟨[(0, .elem "template" [])], 1⟩ 0 = some (s1, [c1]) ∧
      constructShadow s1 0 = some (s2, [c2]) ∧
      c1 ≠ c2 ∧ c1 ≠ 0 ∧ c2 ≠ 0 ∧
      storeFind s2.entries c1 = some (.elem "template" []) ∧
      storeFind s2.entries c2 = some (.elem "template" []) ∧
      storeFind s2.entries 0 = some (.elem "template" []) ∧
      storeFind (setFrag s2 c1 (.elem "span" [])).entries c2 = some (.elem "template" []) ∧
      storeFind (setFrag s2 c1 (.elem "span" [])).entries 0 = some (.elem "template" []) ∧
      storeFind (setFrag s2 c2 (.elem "span" [])).entries c1 = some (.elem "template" []) ∧
      storeFind (setFrag s2 c2 (.elem "span" [])).entries 0 = some (.elem "template" []) ∧
      (0 : Nat) ∉ [c1] ∧ (0 : Nat) ∉ [c2] :=
  template_clone_independent ⟨[(0, .elem "template" [])], 1⟩ 0 (.elem "template" [])
    (.elem "span" []) rfl rfl

/-- Updating the entry for one host never changes the Instance Table's key
sequence. -/
theorem updateTable_keys {Data : Type} (t : List (Nat × Instance Data)) (h : Nat)
    (i : Instance Data) : (updateTable t h i).map Prod.fst = t.map Prod.fst := by
  induction t with
  | nil => rfl
  | cons p rest ih =>
    simp only [updateTable, List.map_cons] at ih ⊢
    rw [ih]
    by_cases hp : p.1 = h
    · simp [hp]
    · simp [hp]

/-- Dispatching any notification never changes the Instance Table's key
sequence. -/
theorem dispatch_keys {Data : Type} (s : BridgeState Data) (n : Notification) :
    (dispatch s n).1.table.map Prod.fst = s.table.map Prod.fst := by
  cases n with
  | connectN h =>
    rcases hI : findInst s h with _ | inst
    · simp [dispatch, hI]
    · rcases hR : lookupReg s inst.kind with _ | r
      · simp [dispatch, hI, hR]
      · rcases hc : r.connected inst.data with e | d <;>
          simp [dispatch, hI, hR, hc, updateTable_keys]
  | disconnectN h =>
    rcases hI : findInst s h with _ | inst
    · simp [dispatch, hI]
    · rcases hR : lookupReg s inst.kind with _ | r
      · simp [dispatch, hI, hR]
      · rcases hc : r.disconnected inst.data with e | d <;>
          simp [dispatch, hI, hR, hc, updateTable_keys]
  | adoptN h b =>
    rcases hI : findInst s h with _ | inst
    · simp [dispatch, hI]
    · rcases hR : lookupReg s inst.kind with _ | r
      · simp [dispatch, hI, hR]
      · rcases hc : r.adopted inst.data with e | d <;>
          simp [dispatch, hI, hR, hc, updateTable_keys]
  | attributeMutated h name old new =>
    rcases hI : findInst s h with _ | inst
    · simp [dispatch, hI]
    · rcases hR : lookupReg s inst.kind with _ | r
      · simp [dispatch, hI, hR]
      · by_cases hobs : name ∈ r.observedAttributes
        · rcases hc : r.attributeChanged inst.data ⟨name, old, new⟩ with e | d <;>
            simp [dispatch, hI, hR, hobs, hc, updateTable_keys]
        · simp [dispatch, hI, hR, hobs]

/-- Registration leaves the Instance Table untouched. -/
theorem register_table {Data : Type} (s s' : BridgeState Data) (r : Registration Data)
    (hok : register s r = .ok s') : s'.table = s.table := by
  by_cases hdup : (s.registry.find? (fun p => p.1 == r.kindName)).isSome = true
  · simp [register, hdup] at hok
  · simp only [register, hdup, Bool.false_eq_true, if_false, Except.ok.injEq] at hok
    rw [← hok]

/-- A successful construction appends exactly one entry, for a host that had
none. -/
theorem construct_table {Data : Type} (s s' : BridgeState Data) (h : Nat) (k : String)
    (hok : construct s h k = .ok s') :
    findInst s h = none ∧
    ∃ r, lookupReg s k = some r ∧
      s'.table = s.table ++ [(h, ⟨k, r.construct h, .disconnectedSt⟩)] := by
  rcases hR : lookupReg s k with _ | r
  · simp [construct, hR] at hok
  · rcases hI : findInst s h with _ | inst
    · simp only [construct, hR, hI, Option.isSome_none, Bool.false_eq_true, if_false,
        Except.ok.injEq] at hok
      exact ⟨rfl, r, rfl, by rw [← hok]⟩
    · simp [construct, hR, hI] at hok

/-- A successful construction keeps the Instance Table's keys
duplicate-free. -/
theorem construct_keys_nodup {Data : Type} (s s' : BridgeState Data) (h : Nat) (k : String)
    (hok : construct s h k = .ok s') (hnd : (s.table.map Prod.fst).Nodup) :
    (s'.table.map Prod.fst).Nodup := by
  obtain ⟨hI, r, hR, htab⟩ := construct_table s s' h k hok
  have hfindN : s.table.find? (fun p => p.1 == h) = none := by
    simpa [findInst, Option.map_eq_none'] using hI
  have hnotin : h ∉ s.table.map Prod.fst := by
    intro hmem
    obtain ⟨p, hpmem, hpk⟩ := List.mem_map.mp hmem
    have hne := List.find?_eq_none.mp hfindN p hpmem
    simp [hpk] at hne
  rw [htab]
  simp only [List.map_append, List.map_cons, List.map_nil]
  rw [List.nodup_append]
  exact ⟨hnd, List.nodup_singleton h, by simpa using fun hmem => hnotin hmem⟩

/-- In every reachable bridge state the Instance Table's keys are
duplicate-free. -/
theorem reachable_keys_nodup {Data : Type} (s : BridgeState Data) (hs : Reachable s) :
    (s.table.map Prod.fst).Nodup := by
  induction hs with
  | init => simp [emptyBridge]
  | regStep _ hok ih =>
    rw [register_table _ _ _ hok]
    exact ih
  | conStep _ hok ih =>
    exact construct_keys_nodup _ _ _ _ hok ih
  | dispStep _ ih =>
    rw [dispatch_keys]
    exact ih

/-- A duplicate-free key sequence bounds the number of entries per host by
one. -/
theorem count_le_one_of_nodup {Data : Type} (t : List (Nat × Instance Data)) (h : Nat)
    (hnd : (t.map Prod.fst).Nodup) : (t.filter (fun p => p.1 == h)).length ≤ 1 := by
  induction t with
  | nil => simp
  | cons p rest ih =>
    simp only [List.map_cons, List.nodup_cons] at hnd
    by_cases hp : p.1 = h
    · have hrest : rest.filter (fun p => p.1 == h) = [] := by
        rw [List.filter_eq_nil]
        intro q hq hbad
        have : q.1 = h := by simpa using hbad
        exact hnd.1 (List.mem_map.mpr ⟨q, hq, by rw [this, hp]⟩)
      simp [List.filter_cons, hp, hrest]
    · simp only [List.filter_cons, show (p.1 == h) = false by simp [hp], Bool.false_eq_true,
        if_false]
      exact ih hnd.2

/-- The initial MyElement state is reachable: register MyElement, then
construct host 0. -/
theorem myState_reachable : Reachable myState :=
  .conStep (s := ⟨[("my-element", myElementReg)], [], []⟩) (h := 0) (k := "my-element")
    (.regStep (s := emptyBridge MyElementData) (r := myElementReg) .init rfl) rfl

/-- C3: in every reachable state each live host identity has at most one
Instance Table entry; a construction for a fresh host succeeds and leaves
exactly one entry for it, reaching another valid state, and a second
construction for the same host without an intervening finalization is
rejected with a duplicate-instance error. -/
theorem instance_uniqueness {Data : Type} (s : BridgeState Data) (hs : Reachable s)
    (h : Nat) (k : String) (r : Registration Data)
    (hR : lookupReg s k = some r) (hfresh : findInst s h = none) :
    (∀ h', countEntries s h' ≤ 1) ∧
    ∃ s', construct s h k = .ok s' ∧
      countEntries s' h = 1 ∧
      Reachable s' ∧
      construct s' h k = .error .duplicateInstance := by
  have hfind : s.table.find? (fun p => p.1 == h) = none := by
    simpa [findInst, Option.map_eq_none'] using hfresh
  refine ⟨fun h' => count_le_one_of_nodup _ _ (reachable_keys_nodup s hs),
    { s with table := s.table ++ [(h, ⟨k, r.construct h, .disconnectedSt⟩)] }, ?_, ?_, ?_, ?_⟩
  · simp [construct, hR, hfresh]
  · have hnil : s.table.filter (fun p => p.1 == h) = [] := by
      rw [List.filter_eq_nil]
      intro q hq hbad
      have := List.find?_eq_none.mp hfind q hq
      exact this hbad
    simp [countEntries, List.filter_append, hnil]
  · refine Reachable.conStep (h := h) (k := k) hs ?_
    simp [construct, hR, hfresh]
  · have hfind' : (s.table ++ [(h, (⟨k, r.construct h, .disconnectedSt⟩ : Instance Data))]).find?
        (fun p => p.1 == h) = some (h, ⟨k, r.construct h, .disconnectedSt⟩) := by
      rw [find?_append_of_none _ _ _ hfind]
      simp
    have hsome : findInst { s with table := s.table ++
        [(h, (⟨k, r.construct h, .disconnectedSt⟩ : Instance Data))] } h =
        some ⟨k, r.construct h, .disconnectedSt⟩ := by
      simp only [findInst]
      rw [hfind']
      rfl
    have hR' : lookupReg { s with table := s.table ++
        [(h, (⟨k, r.construct h, .disconnectedSt⟩ : Instance Data))] } k = some r := hR
    simp [construct, hR', hsome]

/-- Witness for C3: constructing a second MyElement at the fresh host 1. -/
theorem instance_uniqueness_witness :
    ((∀ h', countEntries myState h' ≤ 1) ∧
    ∃ s', construct myState 1 "my-element" = .ok s' ∧
      countEntries s' 1 = 1 ∧
      Reachable s' ∧
      construct s' 1 "my-element" = .error .duplicateInstance) :=
  instance_uniqueness myState myState_reachable 1 "my-element" myElementReg rfl rfl

/-- A connect dispatch whose callback succeeds transitions the instance to
Connected with the callback's data and reports exactly one invocation. -/
theorem dispatch_connect_ok {Data : Type} (s : BridgeState Data) (h : Nat)
    (inst : Instance Data) (r : Registration Data) (d : Data)
    (hI : findInst s h = some inst) (hR : lookupReg s inst.kind = some r)
    (hc : r.connected inst.data = .ok d) :
    dispatch s (.connectN h) =
      ({ s with table := updateTable s.table h { inst with data := d, state := .connectedSt } },
        [.connectedEv h]) := by
  simp [dispatch, hI, hR, hc]

/-- A disconnect dispatch whose callback succeeds transitions the instance
to Disconnected with the callback's data and reports exactly one
invocation. -/
theorem dispatch_disconnect_ok {Data : Type} (s : BridgeState Data) (h : Nat)
    (inst : Instance Data) (r : Registration Data) (d : Data)
    (hI : findInst s h = some inst) (hR : lookupReg s inst.kind = some r)
    (hc : r.disconnected inst.data = .ok d) :
    dispatch s (.disconnectN h) =
      ({ s with table := updateTable s.table h { inst with data := d, state := .disconnectedSt } },
        [.disconnectedEv h]) := by
  simp [dispatch, hI, hR, hc]

/-- Updating a present host's entry makes subsequent lookups serve the new
entry. -/
theorem find?_updateTable {Data : Type} (t : List (Nat × Instance Data)) (h : Nat)
    (i : Instance Data) (hex : (t.find? (fun p => p.1 == h)).isSome = true) :
    (updateTable t h i).find? (fun p => p.1 == h) = some (h, i) := by
  induction t with
  | nil => simp at hex
  | cons p rest ih =>
    by_cases hp : p.1 = h
    · have hb : (p.1 == h) = true := by simp [hp]
      simp only [updateTable, List.map_cons, hb, if_true]
      rw [List.find?_cons_of_pos _ (by simp)]
    · have hb : (p.1 == h) = false := by simp [hp]
      simp only [updateTable, List.map_cons, hb, Bool.false_eq_true, if_false]
      rw [List.find?_cons_of_neg _ (by simp [hp])]
      rw [List.find?_cons_of_neg _ (by simp [hp])] at hex
      exact ih hex

/-- State-level counterpart of `find?_updateTable`. -/
theorem findInst_update {Data : Type} (s : BridgeState Data) (h : Nat)
    (inst i : Instance Data) (hI : findInst s h = some inst) :
    findInst { s with table := updateTable s.table h i } h = some i := by
  have hex : (s.table.find? (fun p => p.1 == h)).isSome = true := by
    rcases hq : s.table.find? (fun p => p.1 == h) with _ | p
    · simp [findInst, hq] at hI
    · simp [hq]
  simp only [findInst]
  rw [find?_updateTable _ _ _ hex]
  rfl

/-- One connect dispatch on the closed-form MyElement state: the counter
increments modulo 2^32 and the state becomes Connected. -/
theorem dispatch_myStep (c : Nat) (st : LifecycleState) :
    dispatch { registry := [("my-element", myElementReg)],
               table := [(0, ⟨"my-element", ⟨c⟩, st⟩)], errors := [] } (.connectN 0) =
      ({ registry := [("my-element", myElementReg)],
         table := [(0, ⟨"my-element", ⟨(c + 1) % u32Mod⟩, .connectedSt⟩)], errors := [] },
        [.connectedEv 0]) :=
  rfl

/-- Closed form of `n` connect notifications on MyElement's instance: the
counter holds `n % 2^32` and the state is Connected for `n > 0`. -/
theorem connectIter_closed (n : Nat) :
    connectIter n =
      { registry := [("my-element", myElementReg)],
        table := [(0, ⟨"my-element", ⟨n % u32Mod⟩, stateAfter n⟩)],
        errors := [] } := by
  induction n with
  | zero => rfl
  | succ n ih =>
    rw [connectIter, ih, dispatch_myStep]
    simp [stateAfter, Nat.mod_add_mod]

/-- MyElement's counter after `n` connect notifications is `n % 2^32`. -/
theorem myCountAfter_eq (n : Nat) : myCountAfter n = n % u32Mod := by
  unfold myCountAfter
  rw [connectIter_closed]
  rfl

/-- C4 counterexample: after 2^32 connect notifications the `u32` counter
has wrapped to 0, so `connected_count` is not the number of connect
notifications delivered. -/
theorem connect_count_wrap_counterexample : ¬ myCountAfter (2 ^ 32) = 2 ^ 32 := by
  rw [myCountAfter_eq]
  simp [u32Mod]

/-- C4 (amended): after construction an instance is in the Disconnected
state; the notification sequence connect, disconnect, connect invokes the
connected, disconnected, connected callbacks in exactly that order, each
exactly once; and for MyElement, after `n` connect notifications
`connected_count` equals `n` reduced modulo 2^32 (hence equals `n` whenever
`n < 2^32`, the counter being a `u32`). -/
theorem lifecycle_order_and_count {Data : Type} (s : BridgeState Data) (h : Nat)
    (inst : Instance Data) (r : Registration Data)
    (s₂ : BridgeState Data) (h₂ : Nat) (k₂ : String) (r₂ : Registration Data) (n : Nat)
    (hI : findInst s h = some inst) (hR : lookupReg s inst.kind = some r)
    (hcall : ∀ d, ∃ d', r.connected d = .ok d')
    (hdall : ∀ d, ∃ d', r.disconnected d = .ok d')
    (hR₂ : lookupReg s₂ k₂ = some r₂) (hfresh₂ : findInst s₂ h₂ = none) :
    (∃ s', construct s₂ h₂ k₂ = .ok s' ∧
      findInst s' h₂ = some ⟨k₂, r₂.construct h₂, .disconnectedSt⟩) ∧
    (dispatchAll s [.connectN h, .disconnectN h, .connectN h]).2 =
      [.connectedEv h, .disconnectedEv h, .connectedEv h] ∧
    myCountAfter n = n % u32Mod := by
  refine ⟨?_, ?_, myCountAfter_eq n⟩
  · have hfind₂ : s₂.table.find? (fun p => p.1 == h₂) = none := by
      simpa [findInst, Option.map_eq_none'] using hfresh₂
    refine ⟨{ s₂ with table := s₂.table ++ [(h₂, ⟨k₂, r₂.construct h₂, .disconnectedSt⟩)] },
      ?_, ?_⟩
    · simp [construct, hR₂, hfresh₂]
    · simp only [findInst]
      rw [find?_append_of_none _ _ _ hfind₂]
      simp
  · obtain ⟨d1, hd1⟩ := hcall inst.data
    have e1 := dispatch_connect_ok s h inst r d1 hI hR hd1
    have hI1 := findInst_update s h inst { inst with data := d1, state := .connectedSt } hI
    obtain ⟨d2, hd2⟩ := hdall d1
    have e2 := dispatch_disconnect_ok _ h { inst with data := d1, state := .connectedSt } r d2
      hI1 hR hd2
    have hI2 := findInst_update _ h { inst with data := d1, state := .connectedSt }
      { inst with data := d2, state := .disconnectedSt } hI1
    obtain ⟨d3, hd3⟩ := hcall d2
    have e3 := dispatch_connect_ok _ h { inst with data := d2, state := .disconnectedSt } r d3
      hI2 hR hd3
    simp [dispatchAll, e1, e2, e3]

/-- Witness for C4 (amended) at MyElement's live instance, a fresh host 1
and three connect notifications. -/
theorem lifecycle_order_and_count_witness :
    ((∃ s', construct myState 1 "my-element" = .ok s' ∧
      findInst s' 1 = some ⟨"my-element", myElementReg.construct 1, .disconnectedSt⟩) ∧
    (dispatchAll myState [.connectN 0, .disconnectN 0, .connectN 0]).2 =
      [.connectedEv 0, .disconnectedEv 0, .connectedEv 0] ∧
    myCountAfter 3 = 3 % u32Mod) :=
  lifecycle_order_and_count myState 0 ⟨"my-element", ⟨0⟩, .disconnectedSt⟩ myElementReg
    myState 1 "my-element" myElementReg 3 rfl rfl
    (fun d => ⟨myConnected d, rfl⟩) (fun d => ⟨d, rfl⟩) rfl rfl

/-- Dispatch reads only the Instance Table and the registry: two states
agreeing on those dispatch any notification to the same table, registry and
callback invocations. -/
theorem dispatch_congr {Data : Type} (s₁ s₂ : BridgeState Data) (n : Notification)
    (ht : s₁.table = s₂.table) (hr : s₁.registry = s₂.registry) :
    (dispatch s₁ n).1.table = (dispatch s₂ n).1.table ∧
    (dispatch s₁ n).1.registry = (dispatch s₂ n).1.registry ∧
    (dispatch s₁ n).2 = (dispatch s₂ n).2 := by
  have hfi : ∀ h, findInst s₁ h = findInst s₂ h := by
    intro h
    simp [findInst, ht]
  have hlr : ∀ k, lookupReg s₁ k = lookupReg s₂ k := by
    intro k
    simp [lookupReg, hr]
  cases n with
  | connectN h =>
    have hI1 := hfi h
    rcases hI : findInst s₂ h with _ | inst
    · rw [hI] at hI1
      simp [dispatch, hI, hI1, ht, hr]
    · rw [hI] at hI1
      have hR1 := hlr inst.kind
      rcases hR : lookupReg s₂ inst.kind with _ | r
      · rw [hR] at hR1
        simp [dispatch, hI, hI1, hR, hR1, ht, hr]
      · rw [hR] at hR1
        rcases hc : r.connected inst.data with e | d <;>
          simp [dispatch, hI, hI1, hR, hR1, hc, ht, hr]
  | disconnectN h =>
    have hI1 := hfi h
    rcases hI : findInst s₂ h with _ | inst
    · rw [hI] at hI1
      simp [dispatch, hI, hI1, ht, hr]
    · rw [hI] at hI1
      have hR1 := hlr inst.kind
      rcases hR : lookupReg s₂ inst.kind with _ | r
      · rw [hR] at hR1
        simp [dispatch, hI, hI1, hR, hR1, ht, hr]
      · rw [hR] at hR1
        rcases hc : r.disconnected inst.data with e | d <;>
          simp [dispatch, hI, hI1, hR, hR1, hc, ht, hr]
  | adoptN h b =>
    have hI1 := hfi h
    rcases hI : findInst s₂ h with _ | inst
    · rw [hI] at hI1
      simp [dispatch, hI, hI1, ht, hr]
    · rw [hI] at hI1
      have hR1 := hlr inst.kind
      rcases hR : lookupReg s₂ inst.kind with _ | r
      · rw [hR] at hR1
        simp [dispatch, hI, hI1, hR, hR1, ht, hr]
      · rw [hR] at hR1
        rcases hc : r.adopted inst.data with e | d <;>
          simp [dispatch, hI, hI1, hR, hR1, hc, ht, hr]
  | attributeMutated h name old new =>
    have hI1 := hfi h
    rcases hI : findInst s₂ h with _ | inst
    · rw [hI] at hI1
      simp [dispatch, hI, hI1, ht, hr]
    · rw [hI] at hI1
      have hR1 := hlr inst.kind
      rcases hR : lookupReg s₂ inst.kind with _ | r
      · rw [hR] at hR1
        simp [dispatch, hI, hI1, hR, hR1, ht, hr]
      · rw [hR] at hR1
        by_cases hobs : name ∈ r.observedAttributes
        · rcases hc : r.attributeChanged inst.data ⟨name, old, new⟩ with e | d <;>
            simp [dispatch, hI, hI1, hR, hR1, hobs, hc, ht, hr]
        · simp [dispatch, hI, hI1, hR, hR1, hobs, ht, hr]

/-- Unfolding of the dispatch loop on a cons cell. -/
theorem dispatchAll_cons {Data : Type} (s : BridgeState Data) (n : Notification)
    (rest : List Notification) :
    dispatchAll s (n :: rest) =
      ((dispatchAll (dispatch s n).1 rest).1,
        (dispatch s n).2 ++ (dispatchAll (dispatch s n).1 rest).2) :=
  rfl

/-- Loop-level congruence: two states agreeing on table and registry run any
notification list to the same tables, registries and invocation traces. -/
theorem dispatchAll_congr {Data : Type} (s₁ s₂ : BridgeState Data) (ns : List Notification)
    (ht : s₁.table = s₂.table) (hr : s₁.registry = s₂.registry) :
    (dispatchAll s₁ ns).1.table = (dispatchAll s₂ ns).1.table ∧
    (dispatchAll s₁ ns).1.registry = (dispatchAll s₂ ns).1.registry ∧
    (dispatchAll s₁ ns).2 = (dispatchAll s₂ ns).2 := by
  induction ns generalizing s₁ s₂ with
  | nil => exact ⟨ht, hr, rfl⟩
  | cons n rest ih =>
    obtain ⟨ht', hr', hev⟩ := dispatch_congr s₁ s₂ n ht hr
    obtain ⟨ht'', hr'', hev'⟩ := ih (dispatch s₁ n).1 (dispatch s₂ n).1 ht' hr'
    rw [dispatchAll_cons, dispatchAll_cons]
    exact ⟨ht'', hr'', by rw [hev, hev']⟩

/-- A dispatch whose callback fails only appends the failure to the error
channel: table and registry are untouched. -/
theorem dispatch_fail {Data : Type} (s : BridgeState Data) (n : Notification) (e : String)
    (hfail : callbackResult s n = some (.error e)) :
    (dispatch s n).1 = { s with errors := s.errors ++ [e] } := by
  cases n with
  | connectN h =>
    rcases hI : findInst s h with _ | inst
    · simp [callbackResult, hI] at hfail
    · rcases hR : lookupReg s inst.kind with _ | r
      · simp [callbackResult, hI, hR] at hfail
      · have hc : r.connected inst.data = .error e := by
          simpa [callbackResult, hI, hR] using hfail
        simp [dispatch, hI, hR, hc]
  | disconnectN h =>
    rcases hI : findInst s h with _ | inst
    · simp [callbackResult, hI] at hfail
    · rcases hR : lookupReg s inst.kind with _ | r
      · simp [callbackResult, hI, hR] at hfail
      · have hc : r.disconnected inst.data = .error e := by
          simpa [callbackResult, hI, hR] using hfail
        simp [dispatch, hI, hR, hc]
  | adoptN h b =>
    rcases hI : findInst s h with _ | inst
    · simp [callbackResult, hI] at hfail
    · rcases hR : lookupReg s inst.kind with _ | r
      · simp [callbackResult, hI, hR] at hfail
      · have hc : r.adopted inst.data = .error e := by
          simpa [callbackResult, hI, hR] using hfail
        simp [dispatch, hI, hR, hc]
  | attributeMutated h name old new =>
    rcases hI : findInst s h with _ | inst
    · simp [callbackResult, hI] at hfail
    · rcases hR : lookupReg s inst.kind with _ | r
      · simp [callbackResult, hI, hR] at hfail
      · by_cases hobs : name ∈ r.observedAttributes
        · have hc : r.attributeChanged inst.data ⟨name, old, new⟩ = .error e := by
            simpa [callbackResult, hI, hR, hobs] using hfail
          simp [dispatch, hI, hR, hobs, hc]
        · simp [callbackResult, hI, hR, hobs] at hfail

/-- C8: a failure signalled by an application callback is contained to its
instance — the Instance Table and registry are untouched (no corruption),
the failure is appended to the caller-visible error channel, and the
dispatch of any subsequent notification list proceeds with exactly the
tables and invocation trace it would have had without the failure (no
unwinding across the notification loop). -/
theorem callback_failure_contained {Data : Type} (s : BridgeState Data) (n : Notification)
    (e : String) (ns : List Notification)
    (hfail : callbackResult s n = some (.error e)) :
    (dispatch s n).1.table = s.table ∧
    (dispatch s n).1.registry = s.registry ∧
    (dispatch s n).1.errors = s.errors ++ [e] ∧
    (dispatchAll (dispatch s n).1 ns).1.table = (dispatchAll s ns).1.table ∧
    (dispatchAll (dispatch s n).1 ns).2 = (dispatchAll s ns).2 := by
  have hd := dispatch_fail s n e hfail
  have h1 : (dispatch s n).1.table = s.table := by rw [hd]
  have h2 : (dispatch s n).1.registry = s.registry := by rw [hd]
  obtain ⟨ha, _, hb⟩ := dispatchAll_congr (dispatch s n).1 s ns h1 h2
  exact ⟨h1, h2, by rw [hd], ha, hb⟩

/-- Witness for C8: the always-failing connected callback at host 7, with a
follow-up notification for the unrelated host 8. -/
theorem callback_failure_contained_witness :
    (dispatch failState (.connectN 7)).1.table = failState.table ∧
    (dispatch failState (.connectN 7)).1.registry = failState.registry ∧
    (dispatch failState (.connectN 7)).1.errors = failState.errors ++ ["boom"] ∧
    (dispatchAll (dispatch failState (.connectN 7)).1 [.connectN 8]).1.table =
      (dispatchAll failState [.connectN 8]).1.table ∧
    (dispatchAll (dispatch failState (.connectN 7)).1 [.connectN 8]).2 =
      (dispatchAll failState [.connectN 8]).2 :=
  callback_failure_contained failState (.connectN 7) "boom" [.connectN 8] rfl

end Rudo
